import Mathlib

/-!
Shallow embedding of the core line-interpretation pipeline of the tosh shell
(tokenizer, expansion engine, dispatcher, one pass of the session loop),
together with theorems settling the frozen claims about it.

External capabilities (filesystem globbing, subshell capture, chdir success,
execvp success, the HOME variable) are parameters (oracles) of the embedded
functions; everything else is translated directly from the C source.
-/

namespace Tosh

/-! ### Tokenizer: tosh_split_line

The C function scans the line one character at a time with a bracket-depth
counter `bl` and a quote flag `q`.  The end of the input list models the
terminating NUL byte of the C string.  A `none` result models the NULL
pointer returned by the C function (used for mismatched brackets, mismatched
quotes, and the no-arguments case alike). -/

/-- Termination logic of tosh_split_line, reached on NUL, newline, EOF or the
comment character: mismatched brackets and quotes give NULL, a line with no
completed argument and an empty current token gives NULL, otherwise the
accumulated tokens (including the current one) are returned. -/
def splitLineEnd (bl : Int) (q : Bool) (cur : List Char) (acc : List String) :
    Option (List String) :=
  if bl ≠ 0 then none
  else if q then none
  else if acc = [] ∧ cur = [] then none
  else some (acc ++ [cur.asString])

/-- Character loop of tosh_split_line.  `cur` is the token being built
(`*tp` in the C), `acc` the completed tokens.  A space at depth 0 outside
quotes unconditionally finishes the current token and starts a new one. -/
def splitLineAux : List Char → Int → Bool → List Char → List String →
    Option (List String)
  | [], bl, q, cur, acc => splitLineEnd bl q cur acc
  | c :: rest, bl, q, cur, acc =>
    if c = '(' then
      splitLineAux rest (if q then bl else bl + 1) q (cur ++ [c]) acc
    else if c = ')' then
      if q then splitLineAux rest bl q (cur ++ [c]) acc
      else if bl - 1 < 0 then none
      else splitLineAux rest (bl - 1) q (cur ++ [c]) acc
    else if c = '\'' then
      splitLineAux rest bl (!q) cur acc
    else if c = '\\' then
      match rest with
      | d :: rest2 =>
        if d = '\'' then splitLineAux rest2 bl q (cur ++ ['\'']) acc
        else if d = '\\' then splitLineAux rest2 bl q (cur ++ ['\\']) acc
        else splitLineAux (d :: rest2) bl q cur acc
      | [] => splitLineAux [] bl q cur acc
    else if c = ' ' then
      if bl = 0 ∧ q = false then
        splitLineAux rest bl q [] (acc ++ [cur.asString])
      else splitLineAux rest bl q (cur ++ [c]) acc
    else if c = '\n' ∨ c = '#' then
      splitLineEnd bl q cur acc
    else
      splitLineAux rest bl q (cur ++ [c]) acc

/-- tosh_split_line: tokenize a raw line. -/
def tosh_split_line (line : String) : Option (List String) :=
  splitLineAux line.data 0 false [] []

/-! ### Reference splitter for the rejoin property

For lines made only of ordinary characters the tokenizer degenerates to
splitting on single spaces; these definitions express that reference
behaviour so it can be compared with tosh_split_line. -/

/-- Characters with no special role in the tokenizer: anything except
brackets, the quote, the backslash, the comment character and the newline.
A space is ordinary too (it is the separator). -/
def plainChar (c : Char) : Bool :=
  decide (c ≠ '(' ∧ c ≠ ')' ∧ c ≠ '\'' ∧ c ≠ '\\' ∧ c ≠ '#' ∧ c ≠ '\n')

/-- Split a character list at every single space (no run collapsing). -/
def splitSpaces : List Char → List (List Char)
  | [] => [[]]
  | c :: rest =>
    if c = ' ' then [] :: splitSpaces rest
    else
      match splitSpaces rest with
      | [] => [[c]]
      | t :: ts => (c :: t) :: ts

/-- Join character-list tokens with single spaces. -/
def joinSpacesChars : List (List Char) → List Char
  | [] => []
  | [t] => t
  | t :: t2 :: ts => t ++ ' ' :: joinSpacesChars (t2 :: ts)

/-- Join string tokens with single spaces. -/
def joinTokens : List String → String
  | [] => ""
  | [t] => t
  | t :: t2 :: ts => t ++ " " ++ joinTokens (t2 :: ts)

/-- Prepend a partial token onto the first piece of a split. -/
def consFirst (cur : List Char) : List (List Char) → List (List Char)
  | [] => [cur]
  | t :: ts => (cur ++ t) :: ts

/-! ### Home-directory substitution: tosh_expand_tilde

The C function replaces the first `~` of the string with the value of HOME
and then recurses on the whole result; `tildeStep` is one such replacement
and `expandTildeFuel` the recursion, made total with a fuel counter whose
exhaustion (`none`) models non-termination of the C recursion. -/

/-- One rewrite of tosh_expand_tilde: replace the first occurrence of a
tilde with the value of HOME, or report that no tilde is left. -/
def tildeStep (home : String) : List Char → Option (List Char)
  | [] => none
  | c :: rest =>
    if c = '~' then some (home.data ++ rest)
    else (tildeStep home rest).map fun r => c :: r

/-- The recursion of tosh_expand_tilde, with fuel. -/
def expandTildeFuel (home : String) : Nat → List Char → Option (List Char)
  | 0, _ => none
  | n + 1, s =>
    match tildeStep home s with
    | none => some s
    | some s2 => expandTildeFuel home n s2

/-- tosh_expand_tilde: repeatedly replace the first `~` with HOME.  When
HOME does not itself contain a tilde, each step removes one tilde, so
`count + 1` units of fuel decide the recursion: `none` models the C
function never returning. -/
def tosh_expand_tilde (home : String) (s : String) : Option String :=
  (expandTildeFuel home (s.data.count '~' + 1) s.data).map List.asString

/-- The recursion of tosh_expand_tilde reaches a result with some amount of
fuel. -/
def tildeExpansionHalts (home s : String) : Prop :=
  ∃ n r, expandTildeFuel home n s.data = some r

/-! ### Inline command substitution: tosh_expand_expression

tosh_locate_expression finds the first `$` of the token; with a following
`(` the expression runs to the first `)` (finding none means no expansion at
all), otherwise it runs to the next whitespace or the end of the string.
The function below returns the text before the replaced span, the
expression, and the text after the replaced span; `none` models the C
return value 0.  tosh_str_substitute is inlined into
tosh_expand_expression as the concatenation of the three parts with the
subshell result in the middle.  The subshell itself (tosh_eval_inline's
fork/pipe protocol) is an oracle `eval` mapping the expression to the text
substituted for it. -/

/-- Characters ending an unparenthesised `$` expression. -/
def isExprEnd (c : Char) : Bool :=
  c = ' ' ∨ c = '\t' ∨ c = '\n'

/-- The part of tosh_locate_expression after the first `$` was found,
`rest` being the text after the `$`: a following `(` sends the scan to the
first `)` (reaching the end of the string instead means no expression at
all), otherwise the expression runs to the next space, tab or newline or to
the end of the string.  The result is the (empty) text before the replaced
span, the expression text, and the text after the replaced span. -/
def locateDollar (rest : List Char) :
    Option (List Char × List Char × List Char) :=
  match rest with
  | d :: rest2 =>
    if d = '(' then
      match rest2.dropWhile (· ≠ ')') with
      | [] => none
      | _ :: post => some ([], rest2.takeWhile (· ≠ ')'), post)
    else
      some ([], (d :: rest2).takeWhile (fun e => !(isExprEnd e)),
        (d :: rest2).dropWhile (fun e => !(isExprEnd e)))
  | [] => some ([], [], [])

/-- tosh_locate_expression: split the token into the part before the
replaced span, the expression text, and the part after the replaced span. -/
def tosh_locate_expression : List Char → Option (List Char × List Char × List Char)
  | [] => none
  | c :: rest =>
    if c = '$' then locateDollar rest
    else (tosh_locate_expression rest).map fun x => (c :: x.1, x.2.1, x.2.2)

/-- tosh_expand_expression: substitute the subshell result for the first
located `$` expression; `none` when no expression was found. -/
def tosh_expand_expression (eval : String → String) (s : String) : Option String :=
  (tosh_locate_expression s.data).map fun x =>
    (x.1 ++ (eval x.2.1.asString).data ++ x.2.2).asString

/-! ### Result post-processing of tosh_eval_inline

After draining the pipe into `buf` with `bytes_read` bytes, the C code runs
`if (buf[bytes_read - 1] == '\n') buf[bytes_read - 1] = '\0'; else
buf[bytes_read - 1] = '\0';` — both branches overwrite the final byte.  The
definition mirrors that if/else on the captured text (the case of at least
one byte read; zero or negative `bytes_read` indexes the buffer out of
bounds in the C and is not modelled). -/

/-- Post-processing of the captured subshell output in tosh_eval_inline. -/
def tosh_eval_strip (buf : String) : String :=
  if buf.data.getLast? = some '\n' then buf.data.dropLast.asString
  else buf.data.dropLast.asString

/-! ### Pattern expansion and tosh_expand_args

The Glob Resolver is an oracle: `none` models glob() returning
GLOB_NOMATCH, `some ms` the matched path vector.  tosh_expand_args runs
tilde expansion, then a single tosh_expand_expression, then hands the token
to the resolver; a token whose expression expansion found nothing is kept
(the C null-check), a token with no matches is kept literally, and matches
replace the token one argument per match. -/

/-- Globbing step of tosh_expand_args: keep the literal token on
GLOB_NOMATCH, otherwise take the matches. -/
def tosh_glob_expand (glob : String → Option (List String)) (s : String) :
    List String :=
  match glob s with
  | none => [s]
  | some ms => ms

/-- Tilde step of tosh_expand_args: with HOME unavailable
tosh_expand_tilde leaves the token unchanged (after a diagnostic). -/
def expandArgTilde (home : Option String) (s : String) : Option String :=
  match home with
  | none => some s
  | some h => tosh_expand_tilde h s

/-- The first two expansion sub-passes of tosh_expand_args on one token:
tilde expansion, then one inline-expression substitution (kept unchanged
when tosh_expand_expression returns NULL). -/
def tildeExprExpand (home : Option String) (eval : String → String)
    (s : String) : Option String :=
  (expandArgTilde home s).map fun s1 => (tosh_expand_expression eval s1).getD s1

/-- Expansion of one token of tosh_expand_args: tilde, one expression
substitution, then globbing. -/
def tosh_expand_arg (home : Option String) (eval : String → String)
    (glob : String → Option (List String)) (s : String) :
    Option (List String) :=
  (tildeExprExpand home eval s).map (tosh_glob_expand glob)

/-- tosh_expand_args: expand every token and concatenate the results in
token order. -/
def tosh_expand_args (home : Option String) (eval : String → String)
    (glob : String → Option (List String)) (args : List String) :
    Option (List String) :=
  (args.mapM (tosh_expand_arg home eval glob)).map List.flatten

/-! ### Dispatcher and builtins

tosh_execute compares the first argument with the builtin names "cd",
"showenv", "exec", "readconfig", "help", "quit" in registry order by exact
string comparison and runs the matching handler on the full vector; with no
match it forks and execs the external program (tosh_launch), which always
returns 1 to the loop.  The handlers' int results are modelled as
`Option Nat`: `none` models a handler that never returns because the
process image was replaced (a successful exec), `some n` the C return value
n.  The working directory and the chronologically previous directory
(TOSH_LAST_DIR) form the `World`; `dirOk` is the chdir-success oracle and
`execOk` the execvp-success oracle. -/

/-- Current working directory and TOSH_LAST_DIR. -/
structure World where
  cwd : String
  lastdir : String
deriving DecidableEq, Repr

/-- The names of the builtins, in registry order (builtin_str in the C). -/
def builtin_str : List String :=
  ["cd", "showenv", "exec", "readconfig", "help", "quit"]

/-- The chdir part of tosh_cd for a present argument: `-` swaps to the
previously recorded directory, anything else becomes the new working
directory; in both cases TOSH_LAST_DIR becomes the old working directory,
and a failing chdir leaves the working directory unchanged (after a
diagnostic). -/
def tosh_cd_chdir (dirOk : String → Bool) (w : World) (arg : String) : World :=
  if arg = "-" then
    { cwd := if dirOk w.lastdir then w.lastdir else w.cwd, lastdir := w.cwd }
  else
    { cwd := if dirOk arg then arg else w.cwd, lastdir := w.cwd }

/-- tosh_cd: no argument recurses with the value of HOME as the argument
(no state change when HOME is unavailable), exactly one argument changes
directory, more than one argument is reported and ignored.  The handler
returns 1 in every case. -/
def tosh_cd (dirOk : String → Bool) (home : Option String) (w : World)
    (args : List String) : World × Nat :=
  match args[1]? with
  | none =>
    match home with
    | some h => (tosh_cd_chdir dirOk w h, 1)
    | none => (w, 1)
  | some a1 =>
    if args.length = 2 then (tosh_cd_chdir dirOk w a1, 1)
    else (w, 1)

/-- tosh_exec: with an argument, execvp it; on success the process image is
replaced and the handler never returns (`none`), otherwise — a failed exec,
or no argument at all — the handler falls through to `return 0`. -/
def tosh_exec (execOk : String → Bool) (args : List String) : Option Nat :=
  match args[1]? with
  | some prog => if execOk prog then none else some 0
  | none => some 0

/-- tosh_showenv: prints the tracked variables and returns 1. -/
def tosh_showenv : Option Nat := some 1

/-- tosh_readconfig: runs the (empty) config loader and returns 1. -/
def tosh_readconfig : Option Nat := some 1

/-- tosh_help: prints the builtin list and returns 1. -/
def tosh_help : Option Nat := some 1

/-- tosh_quit: returns 0, the stop signal. -/
def tosh_quit : Option Nat := some 0

/-- tosh_execute: an empty vector is a no-op returning 1; a first argument
equal to a builtin name runs that handler on the full vector and returns
its result; anything else is launched externally and the loop is told to
continue. -/
def tosh_execute (dirOk : String → Bool) (home : Option String)
    (execOk : String → Bool) (w : World) (args : List String) :
    World × Option Nat :=
  match args with
  | [] => (w, some 1)
  | a0 :: _ =>
    if a0 = "cd" then
      ((tosh_cd dirOk home w args).1, some (tosh_cd dirOk home w args).2)
    else if a0 = "showenv" then (w, tosh_showenv)
    else if a0 = "exec" then (w, tosh_exec execOk args)
    else if a0 = "readconfig" then (w, tosh_readconfig)
    else if a0 = "help" then (w, tosh_help)
    else if a0 = "quit" then (w, tosh_quit)
    else (w, some 1)

/-! ### One pass of the session loop

tosh_loop reads a line, records it in history, tokenizes, expands and
dispatches; `tosh_loop_pass` is the body of one iteration over a given
line.  A NULL token list skips expansion and dispatch entirely.  The outer
`none` models a pass that never finishes because tosh_expand_tilde does not
terminate.  The prompt is shown exactly when stdin is a tty or
TOSH_FORCE_INTERACTIVE is ON. -/

/-- Interactivity configuration of one pass. -/
structure LoopConfig where
  isTTY : Bool
  forceInteractive : Bool
deriving DecidableEq, Repr

/-- The oracles a pass consumes: HOME, the subshell evaluator, the glob
resolver, and the execvp/chdir success predicates. -/
structure Env where
  home : Option String
  eval : String → String
  glob : String → Option (List String)
  execOk : String → Bool
  dirOk : String → Bool

/-- Observable effects of one pass of the loop. -/
structure PassResult where
  promptShown : Bool
  recorded : List String
  dispatched : Option (List String)
  result : Option (Option Nat)
deriving DecidableEq, Repr

/-- tosh_record_line: the lines appended to the history file — nothing for
an empty line, otherwise the line itself. -/
def tosh_record_line (line : String) : List String :=
  if line.length = 0 then [] else [line]

/-- One iteration of tosh_loop over a given input line: prompt (when
interactive), record, tokenize, and — unless tokenization returned NULL —
expand and dispatch. -/
def tosh_loop_pass (cfg : LoopConfig) (env : Env) (w : World) (line : String) :
    Option PassResult :=
  let prompt := cfg.isTTY || cfg.forceInteractive
  let recorded := tosh_record_line line
  match tosh_split_line line with
  | none => some ⟨prompt, recorded, none, none⟩
  | some toks =>
    match tosh_expand_args env.home env.eval env.glob toks with
    | none => none
    | some args =>
      some ⟨prompt, recorded, some args,
        some (tosh_execute env.dirOk env.home env.execOk w args).2⟩

/-! ### Concrete oracles used by the witnesses -/

/-- An oracle set: HOME unavailable, every subshell evaluates to "hi",
nothing globs, every exec and chdir succeeds. -/
def envA : Env :=
  ⟨none, fun _ => "hi", fun _ => none, fun _ => true, fun _ => true⟩

/-- A concrete world. -/
def wA : World := ⟨"/a", "/b"⟩

/-- A glob oracle matching exactly the bracket pattern. -/
def globAB : String → Option (List String) :=
  fun t => if t = "[ab]" then some ["a", "b"] else none

/-! ## Helper lemmas -/

/-- tosh_cd signals continue (returns 1) on every input and in every
world. -/
theorem tosh_cd_returns_one (dirOk : String → Bool) (home : Option String)
    (w : World) (args : List String) : (tosh_cd dirOk home w args).2 = 1 := by
  cases hg : args[1]? with
  | none => cases home <;> simp [tosh_cd, hg]
  | some a1 => by_cases hl : args.length = 2 <;> simp [tosh_cd, hg, hl]

/-- After the first `$` was found, the text before the replaced span is
empty. -/
theorem locateDollar_pre_nil (rest : List Char)
    (x : List Char × List Char × List Char) (h : locateDollar rest = some x) :
    x.1 = [] := by
  unfold locateDollar at h
  split at h
  · split at h
    · split at h
      · exact absurd h (by simp)
      · rw [← Option.some.inj h]
    · rw [← Option.some.inj h]
  · rw [← Option.some.inj h]

/-- tosh_locate_expression finds the leftmost `$`: the text before the
replaced span contains no `$`. -/
theorem locate_pre_no_dollar :
    ∀ (s : List Char) (x : List Char × List Char × List Char),
      tosh_locate_expression s = some x → '$' ∉ x.1 := by
  intro s
  induction s with
  | nil => intro x h; simp [tosh_locate_expression] at h
  | cons c rest ih =>
    intro x h
    by_cases hc : c = '$'
    · rw [tosh_locate_expression, if_pos hc] at h
      rw [locateDollar_pre_nil rest x h]
      simp
    · rw [tosh_locate_expression, if_neg hc] at h
      cases hloc : tosh_locate_expression rest with
      | none => rw [hloc] at h; exact absurd h (by simp)
      | some y =>
        rw [hloc] at h
        have hx : x = (c :: y.1, y.2.1, y.2.2) := (Option.some.inj h).symm
        rw [hx]
        intro hmem
        rcases List.mem_cons.mp hmem with heq | hmem2
        · exact hc heq.symm
        · exact ih y (by rw [hloc]) hmem2

/-- tildeStep finds no tilde exactly when the string has none. -/
theorem tildeStep_eq_none (home : String) :
    ∀ s : List Char, tildeStep home s = none ↔ '~' ∉ s := by
  intro s
  induction s with
  | nil => simp [tildeStep]
  | cons c rest ih =>
    by_cases hc : c = '~'
    · subst hc; simp [tildeStep]
    · simp [tildeStep, hc, Option.map_eq_none', ih, Ne.symm hc]

/-- With a tilde-free HOME, one tildeStep removes exactly one tilde. -/
theorem tildeStep_count (home : String) (hh : home.data.count '~' = 0) :
    ∀ (s r : List Char), tildeStep home s = some r →
      r.count '~' + 1 = s.count '~' := by
  intro s
  induction s with
  | nil => intro r h; simp [tildeStep] at h
  | cons c rest ih =>
    intro r h
    by_cases hc : c = '~'
    · subst hc
      rw [tildeStep] at h
      rw [if_pos rfl] at h
      rw [← Option.some.inj h]
      simp [List.count_append, List.count_cons, hh]
    · rw [tildeStep, if_neg hc] at h
      cases hstep : tildeStep home rest with
      | none => rw [hstep] at h; exact absurd h (by simp)
      | some r2 =>
        rw [hstep] at h
        rw [← Option.some.inj h]
        have := ih r2 hstep
        simp [List.count_cons, hc, Ne.symm hc]
        omega

/-- A completed tilde expansion leaves no tilde behind. -/
theorem expandTildeFuel_no_tilde (home : String) :
    ∀ (n : Nat) (s r : List Char),
      expandTildeFuel home n s = some r → '~' ∉ r := by
  intro n
  induction n with
  | zero => intro s r h; simp [expandTildeFuel] at h
  | succ n ih =>
    intro s r h
    rw [expandTildeFuel] at h
    cases hstep : tildeStep home s with
    | none =>
      rw [hstep] at h
      rw [← Option.some.inj h]
      exact (tildeStep_eq_none home s).mp hstep
    | some s2 =>
      rw [hstep] at h
      exact ih s2 r h

/-- With a tilde-free HOME, one more unit of fuel than the string has
tildes completes the expansion. -/
theorem expandTildeFuel_halts (home : String) (hh : home.data.count '~' = 0) :
    ∀ (n : Nat) (s : List Char), s.count '~' < n →
      ∃ r, expandTildeFuel home n s = some r := by
  intro n
  induction n with
  | zero => intro s h; omega
  | succ n ih =>
    intro s hlt
    cases hstep : tildeStep home s with
    | none => exact ⟨s, by rw [expandTildeFuel, hstep]⟩
    | some s2 =>
      have hcount := tildeStep_count home hh s s2 hstep
      obtain ⟨r, hr⟩ := ih s2 (by omega)
      exact ⟨r, by rw [expandTildeFuel, hstep]; exact hr⟩

/-- With HOME itself a tilde, the expansion of a tilde rewrites to itself:
no amount of fuel finishes. -/
theorem tilde_home_diverges_aux :
    ∀ n : Nat, expandTildeFuel "~" n ("~" : String).data = none := by
  intro n
  induction n with
  | zero => rfl
  | succ n ih =>
    rw [expandTildeFuel]
    have hstep : tildeStep "~" ("~" : String).data =
        some (("~" : String).data) := by decide
    rw [hstep]
    exact ih

/-- splitSpaces always yields at least one (possibly empty) piece. -/
theorem splitSpaces_ne_nil : ∀ l : List Char, splitSpaces l ≠ [] := by
  intro l
  cases l with
  | nil => simp [splitSpaces]
  | cons c rest =>
    by_cases hc : c = ' '
    · simp [splitSpaces, hc]
    · cases hs : splitSpaces rest <;> simp [splitSpaces, hc, hs]

/-- Unfolding of joinSpacesChars on a nonempty tail. -/
theorem joinSpacesChars_cons (t : List Char) (ts : List (List Char))
    (h : ts ≠ []) :
    joinSpacesChars (t :: ts) = t ++ ' ' :: joinSpacesChars ts := by
  cases ts with
  | nil => exact absurd rfl h
  | cons t2 ts2 => rfl

/-- Joining the pieces of splitSpaces restores the original characters. -/
theorem join_splitSpaces :
    ∀ l : List Char, joinSpacesChars (splitSpaces l) = l := by
  intro l
  induction l with
  | nil => rfl
  | cons c rest ih =>
    by_cases hc : c = ' '
    · subst hc
      have hne := splitSpaces_ne_nil rest
      rw [show splitSpaces (' ' :: rest) = [] :: splitSpaces rest from by
        simp [splitSpaces]]
      rw [joinSpacesChars_cons [] _ hne, ih]
      rfl
    · cases hs : splitSpaces rest with
      | nil => exact absurd hs (splitSpaces_ne_nil rest)
      | cons t ts =>
        rw [show splitSpaces (c :: rest) = (c :: t) :: ts from by
          simp [splitSpaces, hc, hs]]
        rw [← ih, hs]
        cases ts with
        | nil => rfl
        | cons t2 ts2 => rfl

/-- List append corresponds to string append under asString. -/
theorem list_asString_append (a b : List Char) :
    (a ++ b).asString = a.asString ++ b.asString := rfl

/-- joinTokens over strings agrees with joinSpacesChars over characters. -/
theorem joinTokens_map :
    ∀ ll : List (List Char),
      joinTokens (ll.map List.asString) = (joinSpacesChars ll).asString
  | [] => rfl
  | [t] => rfl
  | t :: t2 :: ts => by
    have ih := joinTokens_map (t2 :: ts)
    show t.asString ++ " " ++ joinTokens ((t2 :: ts).map List.asString) = _
    rw [ih]
    rw [joinSpacesChars]
    rw [show t ++ ' ' :: joinSpacesChars (t2 :: ts) =
      t ++ [' '] ++ joinSpacesChars (t2 :: ts) from by simp]
    rw [list_asString_append, list_asString_append]
    rfl

/-- Unpacking of the plainChar predicate. -/
theorem plainChar_spec (c : Char) (h : plainChar c = true) :
    c ≠ '(' ∧ c ≠ ')' ∧ c ≠ '\'' ∧ c ≠ '\\' ∧ c ≠ '#' ∧ c ≠ '\n' := by
  rw [plainChar, decide_eq_true_iff] at h
  exact h

/-- On ordinary characters the tokenizer splits at every single space, the
current token and accumulator threading through. -/
theorem splitLineAux_plain :
    ∀ (l cur : List Char) (acc : List String),
      (∀ c ∈ l, plainChar c = true) →
      splitLineAux l 0 false cur acc =
        if acc = [] ∧ cur = [] ∧ l = [] then none
        else some (acc ++ (consFirst cur (splitSpaces l)).map List.asString) := by
  intro l
  induction l with
  | nil =>
    intro cur acc _
    show splitLineEnd 0 false cur acc = _
    rw [splitLineEnd]
    simp [splitSpaces, consFirst]
  | cons c rest ih =>
    intro cur acc hall
    have hrest : ∀ d ∈ rest, plainChar d = true :=
      fun d hd => hall d (List.mem_cons_of_mem c hd)
    obtain ⟨h1, h2, h3, h4, h5, h6⟩ :=
      plainChar_spec c (hall c (List.mem_cons_self c rest))
    by_cases hsp : c = ' '
    · subst hsp
      have hstep : splitLineAux (' ' :: rest) 0 false cur acc =
          splitLineAux rest 0 false [] (acc ++ [cur.asString]) := by
        rw [splitLineAux.eq_def]
        simp
      rw [hstep, ih [] (acc ++ [cur.asString]) hrest]
      rw [if_neg (by simp)]
      rw [if_neg (by simp)]
      cases hs : splitSpaces rest with
      | nil => exact absurd hs (splitSpaces_ne_nil rest)
      | cons t ts =>
        rw [show splitSpaces (' ' :: rest) = [] :: splitSpaces rest from by
          simp [splitSpaces]]
        rw [hs]
        simp [consFirst]
    · have hstep : splitLineAux (c :: rest) 0 false cur acc =
          splitLineAux rest 0 false (cur ++ [c]) acc := by
        rw [splitLineAux.eq_def]
        simp [h1, h2, h3, h4, h5, h6, hsp]
      rw [hstep, ih (cur ++ [c]) acc hrest]
      rw [if_neg (by simp)]
      rw [if_neg (by simp)]
      cases hs : splitSpaces rest with
      | nil => exact absurd hs (splitSpaces_ne_nil rest)
      | cons t ts =>
        rw [show splitSpaces (c :: rest) = (c :: t) :: ts from by
          simp [splitSpaces, hsp, hs]]
        simp [consFirst]

/-! ## Claim theorems -/

/-- C1 (corrected): a first argument equal to a builtin name dispatches to
that builtin's handler with the full vector and the handler's value is the
continue signal — but the builtins returning the stop signal 0 are exactly
`quit` and `exec` (whose handler returns 0 whenever it returns at all:
missing operand, or a failed exec); every other builtin returns 1. -/
theorem tosh_execute_builtin_signals (dirOk : String → Bool)
    (home : Option String) (execOk : String → Bool) (w : World)
    (a0 : String) (rest : List String) :
    (a0 = "cd" → tosh_execute dirOk home execOk w (a0 :: rest) =
      ((tosh_cd dirOk home w (a0 :: rest)).1,
        some (tosh_cd dirOk home w (a0 :: rest)).2)) ∧
    (a0 = "showenv" → tosh_execute dirOk home execOk w (a0 :: rest) =
      (w, tosh_showenv)) ∧
    (a0 = "exec" → tosh_execute dirOk home execOk w (a0 :: rest) =
      (w, tosh_exec execOk (a0 :: rest))) ∧
    (a0 = "readconfig" → tosh_execute dirOk home execOk w (a0 :: rest) =
      (w, tosh_readconfig)) ∧
    (a0 = "help" → tosh_execute dirOk home execOk w (a0 :: rest) =
      (w, tosh_help)) ∧
    (a0 = "quit" → tosh_execute dirOk home execOk w (a0 :: rest) =
      (w, tosh_quit)) ∧
    (a0 ∈ builtin_str → a0 ≠ "quit" → a0 ≠ "exec" →
      (tosh_execute dirOk home execOk w (a0 :: rest)).2 = some 1) ∧
    ((tosh_execute dirOk home execOk w (a0 :: rest)).2 = some 0 →
      a0 = "quit" ∨ a0 = "exec") := by
  refine ⟨?_, ?_, ?_, ?_, ?_, ?_, ?_, ?_⟩
  · rintro rfl; rfl
  · rintro rfl; rfl
  · rintro rfl; rfl
  · rintro rfl; rfl
  · rintro rfl; rfl
  · rintro rfl; rfl
  · intro hmem h1 h2
    simp [builtin_str] at hmem
    rcases hmem with rfl | rfl | rfl | rfl | rfl | rfl
    · simp [tosh_execute, tosh_cd_returns_one]
    · rfl
    · exact absurd rfl h2
    · rfl
    · rfl
    · exact absurd rfl h1
  · intro h
    by_cases e1 : a0 = "cd"
    · subst e1; simp [tosh_execute, tosh_cd_returns_one] at h
    · by_cases e2 : a0 = "showenv"
      · subst e2; simp [tosh_execute, tosh_showenv] at h
      · by_cases e3 : a0 = "exec"
        · exact Or.inr e3
        · by_cases e4 : a0 = "readconfig"
          · subst e4; simp [tosh_execute, tosh_readconfig] at h
          · by_cases e5 : a0 = "help"
            · subst e5; simp [tosh_execute, tosh_help] at h
            · by_cases e6 : a0 = "quit"
              · exact Or.inl e6
              · simp [tosh_execute, e1, e2, e3, e4, e5, e6] at h

/-- C1 witness: dispatching `exec nosuch` with a failing exec oracle runs
the exec handler on the full vector and returns its value. -/
theorem tosh_execute_builtin_signals_witness :
    tosh_execute (fun _ => true) none (fun _ => false) wA
      ("exec" :: ["nosuch"]) =
      (wA, tosh_exec (fun _ => false) ("exec" :: ["nosuch"])) :=
  (tosh_execute_builtin_signals (fun _ => true) none (fun _ => false) wA
    "exec" ["nosuch"]).2.2.1 rfl

/-- C1 counterexample: the builtin `exec` — not `quit` — returns the stop
signal 0, both when its exec fails and when it has no operand, refuting
that every builtin other than quit returns true. -/
theorem tosh_exec_returns_stop :
    tosh_execute (fun _ => true) none (fun _ => false) wA ["exec", "nosuch"] =
      (wA, some 0) ∧
    tosh_execute (fun _ => true) none (fun _ => true) wA ["exec"] =
      (wA, some 0) ∧
    ("exec" : String) ≠ "quit" := by decide

/-- C2 (corrected): one expansion pass substitutes only the first
(leftmost) `$` expression of a token — the rewritten token is not
rescanned, and the result goes straight to pattern expansion. -/
theorem tosh_expand_arg_single_substitution (home : Option String)
    (eval : String → String) (glob : String → Option (List String))
    (s s1 : String) (h : expandArgTilde home s = some s1) :
    tosh_expand_arg home eval glob s =
      some (tosh_glob_expand glob ((tosh_expand_expression eval s1).getD s1)) ∧
    (∀ x, tosh_locate_expression s1.data = some x → '$' ∉ x.1) := by
  constructor
  · simp [tosh_expand_arg, tildeExprExpand, h]
  · intro x hloc
    exact locate_pre_no_dollar s1.data x hloc

/-- C2 witness: the single-substitution equation at a concrete token with
two `$(...)` expressions. -/
theorem tosh_expand_arg_single_substitution_witness :
    tosh_expand_arg none (fun _ => "hi") (fun _ => none) "$(a)$(b)" =
      some (tosh_glob_expand (fun _ => none)
        ((tosh_expand_expression (fun _ => "hi") "$(a)$(b)").getD "$(a)$(b)")) :=
  (tosh_expand_arg_single_substitution none (fun _ => "hi") (fun _ => none)
    "$(a)$(b)" "$(a)$(b)" rfl).1

/-- C2 counterexample: expanding the token `$(a)$(b)` (each subshell
yielding "hi") leaves the second `$(...)` in place — the result still
contains a `$` and is not the doubly substituted "hihi". -/
theorem expand_args_leaves_second_dollar :
    tosh_expand_args none (fun _ => "hi") (fun _ => none) ["$(a)$(b)"] =
      some ["hi$(b)"] ∧
    '$' ∈ ("hi$(b)" : String).data ∧
    tosh_expand_args none (fun _ => "hi") (fun _ => none) ["$(a)$(b)"] ≠
      some ["hihi"] := by decide

/-- C3 (code bug): the captured output "hi", which does not end in a
newline, comes back as "h" — the identical if/else branches of
tosh_eval_inline overwrite the final byte unconditionally — while
newline-terminated output is stripped as documented. -/
theorem tosh_eval_strip_drops_last :
    tosh_eval_strip "hi" = "h" ∧ tosh_eval_strip "hi" ≠ "hi" ∧
    tosh_eval_strip "hi\n" = "hi" := by decide

/-- C4 (corrected): in the tokenizer a backslash before `'` or `\` emits
the escaped character and consumes both input characters; before any other
character only the backslash is dropped — the following character is not
consumed and is processed normally by the next iteration. -/
theorem split_line_backslash (rest : List Char) (bl : Int) (q : Bool)
    (cur : List Char) (acc : List String) :
    (splitLineAux ('\\' :: '\'' :: rest) bl q cur acc =
      splitLineAux rest bl q (cur ++ ['\'']) acc) ∧
    (splitLineAux ('\\' :: '\\' :: rest) bl q cur acc =
      splitLineAux rest bl q (cur ++ ['\\']) acc) ∧
    (∀ c, c ≠ '\'' → c ≠ '\\' →
      splitLineAux ('\\' :: c :: rest) bl q cur acc =
        splitLineAux (c :: rest) bl q cur acc) := by
  refine ⟨rfl, rfl, ?_⟩
  intro c h1 h2
  simp [splitLineAux, h1, h2]

/-- C4 witness: the dropped-backslash equation at the concrete input
backslash-b. -/
theorem split_line_backslash_witness :
    splitLineAux ['\\', 'b'] 0 false [] [] =
      splitLineAux ['b'] 0 false [] [] :=
  (split_line_backslash [] 0 false [] []).2.2 'b' (by decide) (by decide)

/-- C4 counterexample: tokenizing `x\yz` keeps the character following the
backslash, giving the token "xyz" rather than the "xz" the claim
predicts. -/
theorem split_line_backslash_keeps_next :
    tosh_split_line "x\\yz" = some ["xyz"] ∧
    tosh_split_line "x\\yz" ≠ some ["xz"] := by decide

/-- C5 (corrected): for a nonempty line of ordinary characters, joining
the token list with single spaces reproduces the original line exactly —
whitespace runs are preserved through empty tokens, not collapsed. -/
theorem split_line_space_roundtrip (line : String) (hne : line ≠ "")
    (hp : ∀ c ∈ line.data, plainChar c = true) :
    ∃ toks, tosh_split_line line = some toks ∧ joinTokens toks = line := by
  have hd : line.data ≠ [] := by
    intro h
    apply hne
    cases line with
    | mk data => simp at h; rw [h]
  refine ⟨(splitSpaces line.data).map List.asString, ?_, ?_⟩
  · rw [tosh_split_line, splitLineAux_plain line.data [] [] hp,
      if_neg (by simp [hd])]
    cases hs : splitSpaces line.data with
    | nil => exact absurd hs (splitSpaces_ne_nil line.data)
    | cons t ts => simp [consFirst]
  · rw [joinTokens_map, join_splitSpaces]
    rfl

/-- C5 witness: the round trip at the concrete line "ab cd". -/
theorem split_line_space_roundtrip_witness :
    ∃ toks, tosh_split_line "ab cd" = some toks ∧ joinTokens toks = "ab cd" :=
  split_line_space_roundtrip "ab cd" (by decide) (by decide)

/-- C5 counterexample: the line `a  b` (two separating spaces) tokenizes
with an extra empty token, and rejoining gives back `a  b`, not the
whitespace-collapsed `a b`. -/
theorem split_line_consecutive_spaces :
    tosh_split_line "a  b" = some ["a", "", "b"] ∧
    ("" : String) ∈ ["a", "", "b"] ∧
    joinTokens ["a", "", "b"] = "a  b" ∧
    joinTokens ["a", "", "b"] ≠ "a b" := by decide

/-- C6 (corrected): the empty input line makes the tokenizer return the
null result — the very same signal as a parse error such as `(a`, not a
distinct condition — whereupon the pass performs no dispatch and the loop
continues; but a whitespace-only line such as a single space is *not*
empty-signalled: it yields two empty tokens which are dispatched. -/
theorem empty_line_null_signal :
    tosh_split_line "" = none ∧
    tosh_split_line "(a" = none ∧
    (∀ cfg env w, tosh_loop_pass cfg env w "" =
      some ⟨cfg.isTTY || cfg.forceInteractive, [], none, none⟩) ∧
    tosh_split_line " " = some ["", ""] ∧
    tosh_loop_pass ⟨false, false⟩ envA wA " " =
      some ⟨false, [" "], some ["", ""], some (some 1)⟩ := by
  refine ⟨by decide, by decide, ?_, by decide, by decide⟩
  intro cfg env w
  rfl

/-- C6 counterexample: the whitespace-only line " " does not produce the
empty-command signal (it tokenizes to two empty tokens), and the signal
for the empty line is identical to the parse-error signal. -/
theorem whitespace_line_not_empty_signal :
    tosh_split_line " " = some ["", ""] ∧
    tosh_split_line " " ≠ none ∧
    tosh_split_line "" = tosh_split_line "(a" := by decide

/-- C7 (corrected): the non-interactive single pass run for an inline
substitution shows no prompt and leaves tokenize → expand → dispatch
unchanged, but it does *not* suppress history recording: the evaluated
line is recorded exactly as in an interactive pass. -/
theorem loop_pass_noninteractive (cfg : LoopConfig) (env : Env) (w : World)
    (line : String) (r r0 : PassResult)
    (h : tosh_loop_pass ⟨false, false⟩ env w line = some r)
    (h0 : tosh_loop_pass cfg env w line = some r0) :
    r.promptShown = false ∧ r.recorded = tosh_record_line line ∧
    r.dispatched = r0.dispatched ∧ r.result = r0.result := by
  cases hs : tosh_split_line line with
  | none =>
    simp [tosh_loop_pass, hs] at h h0
    rw [← h, ← h0]
    simp
  | some toks =>
    cases he : tosh_expand_args env.home env.eval env.glob toks with
    | none => simp [tosh_loop_pass, hs, he] at h
    | some args =>
      simp [tosh_loop_pass, hs, he] at h h0
      rw [← h, ← h0]
      simp

/-- C7 witness: the non-interactive pass over "echo hi" compared with a
fully interactive one. -/
theorem loop_pass_noninteractive_witness :
    (⟨false, ["echo hi"], some ["echo", "hi"],
      some (some 1)⟩ : PassResult).promptShown = false ∧
    (⟨false, ["echo hi"], some ["echo", "hi"],
      some (some 1)⟩ : PassResult).recorded = tosh_record_line "echo hi" ∧
    (⟨false, ["echo hi"], some ["echo", "hi"],
      some (some 1)⟩ : PassResult).dispatched =
      (⟨true, ["echo hi"], some ["echo", "hi"],
        some (some 1)⟩ : PassResult).dispatched ∧
    (⟨false, ["echo hi"], some ["echo", "hi"],
      some (some 1)⟩ : PassResult).result =
      (⟨true, ["echo hi"], some ["echo", "hi"],
        some (some 1)⟩ : PassResult).result :=
  loop_pass_noninteractive ⟨true, true⟩ envA wA "echo hi"
    ⟨false, ["echo hi"], some ["echo", "hi"], some (some 1)⟩
    ⟨true, ["echo hi"], some ["echo", "hi"], some (some 1)⟩
    (by decide) (by decide)

/-- C7 counterexample: the subshell's non-interactive pass over "echo hi"
records the evaluated line in history — its recorded list is nonempty,
refuting "no history recording". -/
theorem subshell_pass_records_history :
    tosh_loop_pass ⟨false, false⟩ envA wA "echo hi" =
      some ⟨false, ["echo hi"], some ["echo", "hi"], some (some 1)⟩ ∧
    (["echo hi"] : List String) ≠ [] := by decide

/-- C8 (corrected): for every token and every HOME value that does not
itself contain `~`, the rescan-from-the-start substitution loop terminates
with no `~` left; with HOME=/home/u the token ~/x becomes /home/u/x.  (The
unrestricted claim fails: HOME containing `~` makes the loop diverge.) -/
theorem tosh_expand_tilde_terminates :
    (∀ home s : String, '~' ∉ home.data →
      ∃ r, tosh_expand_tilde home s = some r ∧ '~' ∉ r.data) ∧
    tosh_expand_tilde "/home/u" "~/x" = some "/home/u/x" := by
  constructor
  · intro home s hh
    have hh0 : home.data.count '~' = 0 := List.count_eq_zero.mpr hh
    obtain ⟨r, hr⟩ :=
      expandTildeFuel_halts home hh0 (s.data.count '~' + 1) s.data (by omega)
    refine ⟨r.asString, ?_, ?_⟩
    · rw [tosh_expand_tilde, hr]; rfl
    · have := expandTildeFuel_no_tilde home (s.data.count '~' + 1) s.data r hr
      simpa using this
  · decide

/-- C8 witness: the terminating expansion at HOME=/home/u on the token
~/x. -/
theorem tosh_expand_tilde_terminates_witness :
    ∃ r, tosh_expand_tilde "/home/u" "~/x" = some r ∧ '~' ∉ r.data :=
  tosh_expand_tilde_terminates.1 "/home/u" "~/x" (by decide)

/-- C8 counterexample: with HOME = `~` the substitution loop on the token
`~` rewrites the token to itself forever — no fuel completes it, so the
loop does not terminate for every available HOME value. -/
theorem tilde_home_diverges :
    tosh_expand_tilde "~" "~" = none ∧ ¬ tildeExpansionHalts "~" "~" := by
  constructor
  · decide
  · rintro ⟨n, r, hr⟩
    rw [tilde_home_diverges_aux n] at hr
    exact absurd hr (by simp)

/-- C9 (confirmed): when both directory changes succeed, running the
builtin `cd -` twice restores both the working directory and the recorded
previous directory — `cd -` is an involution on that pair. -/
theorem tosh_cd_dash_involution (dirOk : String → Bool) (home : Option String)
    (w : World) (h1 : dirOk w.lastdir = true) (h2 : dirOk w.cwd = true) :
    (tosh_cd dirOk home (tosh_cd dirOk home w ["cd", "-"]).1 ["cd", "-"]).1 = w := by
  obtain ⟨c, l⟩ := w
  simp at h1 h2
  simp [tosh_cd, tosh_cd_chdir, h1, h2]

/-- C9 witness: the double `cd -` at the concrete world (cwd /a, previous
/b) with chdir always succeeding. -/
theorem tosh_cd_dash_involution_witness :
    (tosh_cd (fun _ => true) none
      (tosh_cd (fun _ => true) none wA ["cd", "-"]).1 ["cd", "-"]).1 = wA :=
  tosh_cd_dash_involution (fun _ => true) none wA rfl rfl

/-- C10 (confirmed): after tilde and inline substitution every token is
handed to the glob resolver — no wildcard check guards the call — and the
resolver's verdict is decisive: no match keeps the literal token, matches
replace it. -/
theorem tosh_expand_arg_always_globs (home : Option String)
    (eval : String → String) (glob : String → Option (List String))
    (s s2 : String) (h : tildeExprExpand home eval s = some s2) :
    (glob s2 = none → tosh_expand_arg home eval glob s = some [s2]) ∧
    (∀ ms, glob s2 = some ms → tosh_expand_arg home eval glob s = some ms) := by
  constructor
  · intro hg; simp [tosh_expand_arg, h, tosh_glob_expand, hg]
  · intro ms hg; simp [tosh_expand_arg, h, tosh_glob_expand, hg]

/-- C10 witness: the wildcard-free token `[ab]` (no `*`, no `?`) is
replaced by the resolver's matches. -/
theorem tosh_expand_arg_always_globs_witness :
    tosh_expand_arg none (fun _ => "hi") globAB "[ab]" = some ["a", "b"] ∧
    '*' ∉ ("[ab]" : String).data ∧ '?' ∉ ("[ab]" : String).data :=
  ⟨(tosh_expand_arg_always_globs none (fun _ => "hi") globAB "[ab]" "[ab]"
      (by decide)).2 ["a", "b"] (by decide), by decide, by decide⟩

end Tosh
